import Mathlib

/-!
Verification development for the symphony web-server toolkit's core:
the path-matching trie router (`src/routing`, `Trie` in the unnamed router
source), its route cache (`src/core/utils/cache.ts`), and the room/broadcast
subsystem (`src/core/rooms`).  Each TypeScript function used by the claims is
embedded as an executable Lean definition; theorems about the claims follow
the definitions.
-/

namespace Symphony

/-! ### Association-list maps

JavaScript `Map` objects and plain string-keyed objects preserve insertion
order; `set`/assignment updates a present key in place and appends an absent
key; `get` returns the value at the key; `delete` removes the entry.  They are
embedded as ordered association lists with those semantics. -/

/-- Lookup in a JS `Map` / object: value at the first matching key. -/
def mapGet {α : Type} : List (String × α) → String → Option α
  | [], _ => none
  | (k', v) :: rest, k => if k' = k then some v else mapGet rest k

/-- Update in a JS `Map` / object: replace in place if the key is present,
otherwise append at the end (insertion order preserved). -/
def mapSet {α : Type} : List (String × α) → String → α → List (String × α)
  | [], k, v => [(k, v)]
  | (k', v') :: rest, k, v =>
    if k' = k then (k, v) :: rest else (k', v') :: mapSet rest k v

/-- Deletion in a JS `Map`: remove the entry with the given key. -/
def mapDelete {α : Type} : List (String × α) → String → List (String × α)
  | [], _ => []
  | (k', v') :: rest, k =>
    if k' = k then rest else (k', v') :: mapDelete rest k

/-! ### Segment classifier (`src/routing/utils/normalize-path.ts`,
`src/routing/utils/segment.ts`, `src/routing/types.ts`) -/

/-- Flag enumeration from `src/routing/types.ts`. -/
inductive Flag : Type where
  | Param : Flag
  | WildCard : Flag
  | Normal : Flag
deriving DecidableEq, Repr

/-- A single path segment and its classification (`src/routing/types.ts`). -/
structure Segment : Type where
  name : String
  flag : Flag
deriving DecidableEq, Repr

/-- Path separators accepted by `normalizePath`: both `/` and `\`. -/
def isSeparator (c : Char) : Bool := c = '/' || c = '\\'

/-- JavaScript `String.prototype.trim`: strips leading and trailing
whitespace.  Defined character-wise so that it evaluates by reduction. -/
def jsTrim (s : String) : String :=
  String.mk (((s.data.dropWhile Char.isWhitespace).reverse.dropWhile
    Char.isWhitespace).reverse)

/-- Collects the maximal runs of characters on which `sep` is false, skipping
empty runs — the shape of the scanning loops in `normalizePath` and
`parseQuery`.  `acc` holds the characters of the current run in reverse. -/
def splitRuns (sep : Char → Bool) : List Char → List Char → List (List Char)
  | [], acc => if acc.isEmpty then [] else [acc.reverse]
  | c :: cs, acc =>
    if sep c then
      if acc.isEmpty then splitRuns sep cs []
      else acc.reverse :: splitRuns sep cs []
    else splitRuns sep cs (c :: acc)

/-- Embedding of `normalizePath` (`src/routing/utils/normalize-path.ts`):
drops everything from the first `?` on, then splits on `/` and `\`,
discarding empty fragments. -/
def normalizePath (path : String) : List String :=
  (splitRuns isSeparator (path.data.takeWhile (fun c => c ≠ '?')) []).map String.mk

/-- Embedding of `transformToSegment` (`src/routing/utils/segment.ts`):
classifies each normalized fragment; a leading `:` makes it a parameter,
exact `*` a wildcard, anything else static.  The source's empty-segment
guard is kept although `normalizePath` never produces empty fragments. -/
def transformToSegment (path : String) : List Segment :=
  (normalizePath path).map fun segment =>
    match segment.data with
    | [] => { name := "", flag := Flag.Normal }
    | c :: _ =>
      { name := segment,
        flag :=
          if c = ':' then Flag.Param
          else if segment = "*" then Flag.WildCard
          else Flag.Normal }

/-- Embedding of `getSegmentName` (`src/routing/utils/segment.ts`): the stored
name, already including `:` or `*` when applicable. -/
def getSegmentName (segment : Segment) : String := segment.name

/-- Array `join('/')` as used for normalized route paths and wildcard
remainders. -/
def joinSlash : List String → String
  | [] => ""
  | [s] => s
  | s :: rest => s ++ "/" ++ joinSlash rest

/-! ### Percent decoding and query parsing
(`src/routing/utils/parse-query.ts`) -/

/-- Numeric value of a hexadecimal digit. -/
def hexVal (c : Char) : Option Nat :=
  if '0' ≤ c ∧ c ≤ '9' then some (c.toNat - '0'.toNat)
  else if 'a' ≤ c ∧ c ≤ 'f' then some (c.toNat - 'a'.toNat + 10)
  else if 'A' ≤ c ∧ c ≤ 'F' then some (c.toNat - 'A'.toNat + 10)
  else none

/-- Worker for `decodeURIComponent`: replaces `%XX` hex escapes by the coded
character. -/
def decodeChars : List Char → List Char
  | [] => []
  | '%' :: h₁ :: h₂ :: rest =>
    match hexVal h₁, hexVal h₂ with
    | some a, some b => Char.ofNat (16 * a + b) :: decodeChars rest
    | _, _ => '%' :: decodeChars (h₁ :: h₂ :: rest)
  | c :: rest => c :: decodeChars rest

/-- Model of JavaScript's `decodeURIComponent` restricted to single-byte
escape sequences, which is all the repository's claims exercise: every `%XX`
pair decodes to the character with that code, other characters pass through.
Multi-byte UTF-8 sequences and the `URIError` on malformed input are outside
the scope of the claims and are not modelled: malformed `%` is left intact. -/
def decodeURIComponent (s : String) : String := String.mk (decodeChars s.data)

/-- Splits one `key=value` pair at the first `=`; `none` when there is no
`=` (a parameter without a value, e.g. `?flag`). -/
def splitPair (pair : String) : String × Option String :=
  let l := pair.data
  let k := l.takeWhile (fun c => c ≠ '=')
  if k.length = l.length then (pair, none)
  else (String.mk k, some (String.mk (l.drop (k.length + 1))))

/-- Embedding of `parseQuery` (`src/routing/utils/parse-query.ts`): splits the
raw query string on `&`, skips empty pieces, splits each piece at its first
`=`, percent-decodes key and value, and assigns into a flat string map
(a parameter without `=` maps to the empty string). -/
def parseQuery (qs : String) : List (String × String) :=
  if qs = "" then []
  else
    ((splitRuns (fun c => c = '&') qs.data []).map String.mk).foldl
      (fun out pair =>
        match splitPair pair with
        | (k, none) => mapSet out (decodeURIComponent k) ""
        | (k, some v) => mapSet out (decodeURIComponent k) (decodeURIComponent v))
      []

/-! ### The Trie router (unnamed router source, `Trie` class)

A `Node` owns a `children` map from literal segment name to child node, an
optional handler, and optional direct edges to its parameter child and
wildcard child.  In the source these two edges are object references that
*alias* entries of the `children` map (both are assigned the same freshly
created node).  The embedding keeps a single copy of every child in
`children` and represents each edge as `String ⊕ Node`: `Sum.inl key` is the
live alias into `children`, and `Sum.inr node` is the frozen snapshot left
behind when `delete` prunes the aliased entry — the source keeps the stale
object reference, and a detached node can never be mutated again. -/

inductive Node (T : Type) : Type where
  | mk (routePath : String) (handler : Option T)
       (children : List (String × Node T))
       (paramChild : Option (String ⊕ Node T))
       (wildcardChild : Option (String ⊕ Node T))
       (paramName : Option String) : Node T

/-- Original route path stored at the node (for introspection). -/
def Node.routePath {T : Type} : Node T → String
  | .mk r _ _ _ _ _ => r

/-- Optional handler payload at the node. -/
def Node.handler {T : Type} : Node T → Option T
  | .mk _ h _ _ _ _ => h

/-- Child map keyed by literal segment name. -/
def Node.children {T : Type} : Node T → List (String × Node T)
  | .mk _ _ c _ _ _ => c

/-- Raw parameter-child edge. -/
def Node.paramChild {T : Type} : Node T → Option (String ⊕ Node T)
  | .mk _ _ _ p _ _ => p

/-- Raw wildcard-child edge. -/
def Node.wildcardChild {T : Type} : Node T → Option (String ⊕ Node T)
  | .mk _ _ _ _ w _ => w

/-- Parameter bind name stored at the parent (e.g. `id` for `:id`). -/
def Node.paramName {T : Type} : Node T → Option String
  | .mk _ _ _ _ _ n => n

/-- Replace the handler field. -/
def Node.setHandler {T : Type} : Node T → Option T → Node T
  | .mk r _ c p w n, h => .mk r h c p w n

/-- Replace the children field. -/
def Node.setChildren {T : Type} : Node T → List (String × Node T) → Node T
  | .mk r h _ p w n, c => .mk r h c p w n

/-- Replace the parameter-child edge. -/
def Node.setParamChild {T : Type} : Node T → Option (String ⊕ Node T) → Node T
  | .mk r h c _ w n, p => .mk r h c p w n

/-- Replace the wildcard-child edge. -/
def Node.setWildcardChild {T : Type} : Node T → Option (String ⊕ Node T) → Node T
  | .mk r h c p _ n, w => .mk r h c p w n

/-- Replace the stored parameter name. -/
def Node.setParamName {T : Type} : Node T → Option String → Node T
  | .mk r h c p w _, n₂ => .mk r h c p w n₂

/-- Replace the stored route path. -/
def Node.setRoutePath {T : Type} : Node T → String → Node T
  | .mk _ h c p w n, r => .mk r h c p w n

/-- Accessor and updater reductions on a constructed node. -/
theorem Node.routePath_mk {T : Type} (r : String) (h : Option T) (c) (pc) (wc) (pn) :
    (Node.mk r h c pc wc pn).routePath = r := rfl

/-- Handler accessor on a constructed node. -/
theorem Node.handler_mk {T : Type} (r : String) (h : Option T) (c) (pc) (wc) (pn) :
    (Node.mk r h c pc wc pn).handler = h := rfl

/-- Children accessor on a constructed node. -/
theorem Node.children_mk {T : Type} (r : String) (h : Option T) (c) (pc) (wc) (pn) :
    (Node.mk r h c pc wc pn).children = c := rfl

/-- Parameter-edge accessor on a constructed node. -/
theorem Node.paramChild_mk {T : Type} (r : String) (h : Option T) (c) (pc) (wc) (pn) :
    (Node.mk r h c pc wc pn).paramChild = pc := rfl

/-- Wildcard-edge accessor on a constructed node. -/
theorem Node.wildcardChild_mk {T : Type} (r : String) (h : Option T) (c) (pc) (wc) (pn) :
    (Node.mk r h c pc wc pn).wildcardChild = wc := rfl

/-- Parameter-name accessor on a constructed node. -/
theorem Node.paramName_mk {T : Type} (r : String) (h : Option T) (c) (pc) (wc) (pn) :
    (Node.mk r h c pc wc pn).paramName = pn := rfl

/-- Handler update on a constructed node. -/
theorem Node.setHandler_mk {T : Type} (r : String) (h h₂ : Option T) (c) (pc) (wc) (pn) :
    (Node.mk r h c pc wc pn).setHandler h₂ = Node.mk r h₂ c pc wc pn := rfl

/-- Children update on a constructed node. -/
theorem Node.setChildren_mk {T : Type} (r : String) (h : Option T) (c c₂) (pc) (wc) (pn) :
    (Node.mk r h c pc wc pn).setChildren c₂ = Node.mk r h c₂ pc wc pn := rfl

/-- Parameter-edge update on a constructed node. -/
theorem Node.setParamChild_mk {T : Type} (r : String) (h : Option T) (c) (pc pc₂) (wc) (pn) :
    (Node.mk r h c pc wc pn).setParamChild pc₂ = Node.mk r h c pc₂ wc pn := rfl

/-- Wildcard-edge update on a constructed node. -/
theorem Node.setWildcardChild_mk {T : Type} (r : String) (h : Option T) (c) (pc) (wc wc₂) (pn) :
    (Node.mk r h c pc wc pn).setWildcardChild wc₂ = Node.mk r h c pc wc₂ pn := rfl

/-- Parameter-name update on a constructed node. -/
theorem Node.setParamName_mk {T : Type} (r : String) (h : Option T) (c) (pc) (wc) (pn pn₂) :
    (Node.mk r h c pc wc pn).setParamName pn₂ = Node.mk r h c pc wc pn₂ := rfl

/-- Route-path update on a constructed node. -/
theorem Node.setRoutePath_mk {T : Type} (r r₂ : String) (h : Option T) (c) (pc) (wc) (pn) :
    (Node.mk r h c pc wc pn).setRoutePath r₂ = Node.mk r₂ h c pc wc pn := rfl

/-- Resolve a param/wildcard edge to the node it references: a live alias is
looked up in the node's own children, a detached snapshot is returned as is.
For every state reachable through `create`/`delete` a live alias key is
present in `children`, so resolution succeeds exactly when the edge exists. -/
def Node.resolve {T : Type} (n : Node T) : Option (String ⊕ Node T) → Option (Node T)
  | none => none
  | some (Sum.inl k) => mapGet n.children k
  | some (Sum.inr m) => some m

/-- The node referenced by `paramChild`, if any. -/
def Node.paramChildNode {T : Type} (n : Node T) : Option (Node T) :=
  n.resolve n.paramChild

/-- The node referenced by `wildcardChild`, if any. -/
def Node.wildcardChildNode {T : Type} (n : Node T) : Option (Node T) :=
  n.resolve n.wildcardChild

/-- Trie state: the root node plus the `_hasContent` flag.  The internal route
cache is modelled separately (see the `Cache` section); by the cache
transparency theorem its `getSegmentsFromCache` always returns the direct
tokenization, which the operations below use. -/
structure TrieState (T : Type) : Type where
  root : Node T
  hasContent : Bool

/-- A freshly constructed `Trie`: root node for `/`, no content. -/
def TrieState.new (T : Type) : TrieState T :=
  ⟨.mk "/" none [] none none none, false⟩

/-- Message built by `Trie.throwIf` when registration conflicts. -/
def conflictMessage (path : String) (conflictPath : Option String) : String :=
  "The route \"" ++ path ++ "\" has already been defined." ++
    match conflictPath with
    | some c => " (conflicts with route \"" ++ c ++ "\")"
    | none => ""

/-- JavaScript `a?.x || b` on strings: the empty string is falsy. -/
def jsOrString (a : Option String) (b : String) : String :=
  match a with
  | some s => if s = "" then b else s
  | none => b

/-- Walk of `create` over the remaining segments, rebuilding the touched
nodes.  Returns the updated subtree together with the conflict message when
`throwIf` fires; the structural changes made before the throw (notably
`children.set` of the fresh node, which the source performs before the
conflict check) persist in the returned node, matching the mutation the
exception leaves behind.  The caller guarantees the segment list it starts
from is nonempty, so the `[]` case is never reached at the root and the
source's `current !== this.root` test is always true there. -/
def createGo {T : Type} (normalizedPath : String) (handler : Option T) :
    List Segment → Node T → Node T × Option String
  | [], current =>
    match current.handler with
    | some _ => (current, some (conflictMessage normalizedPath none))
    | none => (current.setHandler handler, none)
  | seg :: rest, current =>
    let key := getSegmentName seg
    match mapGet current.children key with
    | some next =>
      let r := createGo normalizedPath handler rest next
      (current.setChildren (mapSet current.children key r.1), r.2)
    | none =>
      let fresh : Node T := .mk normalizedPath none [] none none none
      let cur1 := current.setChildren (mapSet current.children key fresh)
      match seg.flag with
      | Flag.Param =>
        match cur1.paramChildNode.bind Node.handler with
        | some _ =>
          (cur1, some (conflictMessage normalizedPath
            (some (jsOrString (cur1.paramChildNode.map Node.routePath) current.routePath))))
        | none =>
          let cur2 := (cur1.setParamChild (some (Sum.inl key))).setParamName (some (key.drop 1))
          let r := createGo normalizedPath handler rest fresh
          (cur2.setChildren (mapSet cur2.children key r.1), r.2)
      | Flag.WildCard =>
        match cur1.wildcardChildNode.bind Node.handler with
        | some _ =>
          (cur1, some (conflictMessage normalizedPath
            (some (jsOrString (cur1.wildcardChildNode.map Node.routePath) current.routePath))))
        | none =>
          let cur2 := cur1.setWildcardChild (some (Sum.inl key))
          let r := createGo normalizedPath handler rest (fresh.setRoutePath normalizedPath)
          (cur2.setChildren (mapSet cur2.children key r.1), r.2)
      | Flag.Normal =>
        let r := createGo normalizedPath handler rest fresh
        (cur1.setChildren (mapSet cur1.children key r.1), r.2)

/-- Unrolled single iteration of `create` for a one-segment wildcard path,
where the loop body's wildcard handling, the root-handler special case
(`segments.length === 1 && flag === WildCard && i === 0`, filling the root
handler if absent) and the final duplicate check interleave.  The root fill
happens after the wildcard conflict check but before the final duplicate
check, so it persists when the latter throws. -/
def createSingleWildcard {T : Type} (t : TrieState T) (handler : Option T)
    (normalizedPath : String) (seg : Segment) : TrieState T × Option String :=
  let root := t.root
  let key := getSegmentName seg
  match mapGet root.children key with
  | some child =>
    let root1 := match root.handler with
      | none => root.setHandler handler
      | some _ => root
    match child.handler with
    | some _ => (⟨root1, true⟩, some (conflictMessage normalizedPath none))
    | none =>
      (⟨root1.setChildren (mapSet root1.children key (child.setHandler handler)), true⟩, none)
  | none =>
    let fresh : Node T := .mk normalizedPath none [] none none none
    let cur1 := root.setChildren (mapSet root.children key fresh)
    match cur1.wildcardChildNode.bind Node.handler with
    | some _ =>
      (⟨cur1, true⟩, some (conflictMessage normalizedPath
        (some (jsOrString (cur1.wildcardChildNode.map Node.routePath) root.routePath))))
    | none =>
      let cur2 := cur1.setWildcardChild (some (Sum.inl key))
      let cur3 := cur2.setChildren (mapSet cur2.children key (fresh.setRoutePath normalizedPath))
      let cur4 := match cur3.handler with
        | none => cur3.setHandler handler
        | some _ => cur3
      (⟨cur4.setChildren
          (mapSet cur4.children key ((fresh.setRoutePath normalizedPath).setHandler handler)),
        true⟩, none)

/-- Embedding of `Trie.create`.  Sets `_hasContent` first (it persists on
error), special-cases the root spellings `''` and `/`, tokenizes the trimmed
path, and walks/creates nodes per segment with the conflict checks of
`throwIf`.  A path that tokenizes to zero segments without being spelled
`''` or `/` (e.g. `'//'`) skips the walk, leaves `current === this.root`,
and therefore bypasses the final duplicate check.  Handlers are modelled as
always-truthy values (the source stores functions). -/
def create {T : Type} (t : TrieState T) (path : String) (handler : Option T) :
    TrieState T × Option String :=
  let t1 : TrieState T := ⟨t.root, true⟩
  let trimmed := jsTrim path
  if trimmed = "" ∨ trimmed = "/" then
    match t1.root.handler with
    | some _ => (t1, some (conflictMessage trimmed none))
    | none => (⟨t1.root.setHandler handler, true⟩, none)
  else
    let segments := transformToSegment trimmed
    let normalizedPath := joinSlash (segments.map Segment.name)
    match segments with
    | [] => (⟨t1.root.setHandler handler, true⟩, none)
    | [seg] =>
      if seg.flag = Flag.WildCard then
        createSingleWildcard t1 handler normalizedPath seg
      else
        let r := createGo normalizedPath handler segments t1.root
        (⟨r.1, true⟩, r.2)
    | _ :: _ :: _ =>
      let r := createGo normalizedPath handler segments t1.root
      (⟨r.1, true⟩, r.2)

/-- Result of a successful `Trie.find` (`src/routing/types.ts`). -/
structure FindResult (T : Type) : Type where
  node : Node T
  params : List (String × String)
  query : List (String × String)
  wildCard : String

/-- Wildcard remainder: the slash-joined tail of the request segments from
the depth at which wildcarding began; empty when no wildcard was involved.
Whenever a wildcard node has been recorded the index has been recorded with
it, so the `none` case with a recorded wildcard does not occur. -/
def wildRemainder (all : List Segment) : Option Nat → String
  | some w => joinSlash ((all.drop w).map Segment.name)
  | none => ""

/-- Pathname part of a request path: everything before the first `?`
(JavaScript `path.split('?')[0]`). -/
def pathnameOf (path : String) : String :=
  String.mk (path.data.takeWhile (fun c => c ≠ '?'))

/-- Query-string part of a request path: the text between the first and the
second `?`, i.e. JavaScript `path.split('?')[1] ?? ''`. -/
def queryStringOf (path : String) : String :=
  String.mk (((path.data.dropWhile (fun c => c ≠ '?')).drop 1).takeWhile (fun c => c ≠ '?'))

/-- Main loop of `Trie.find`: per segment, prefer the exact static child;
else fall back to the parameter child, binding the parameter name to the
decoded literal segment; else fall back to the wildcard child, recording the
node and the first wildcard depth.  If nothing matches, return the most
recent wildcard match or no result.  `all` is the full segment list (for the
remainder slice), `i` the current depth. -/
def findLoop {T : Type} (query : List (String × String)) (all : List Segment) :
    List Segment → Nat → Node T → List (String × String) → Option (Node T) → Option Nat →
    Option (FindResult T)
  | [], _, current, params, _, wIdx =>
    some ⟨current, params, query, wildRemainder all wIdx⟩
  | seg :: rest, i, current, params, wildcard, wIdx =>
    match mapGet current.children seg.name with
    | some next => findLoop query all rest (i + 1) next params wildcard wIdx
    | none =>
      match current.paramChildNode with
      | some pc =>
        let params1 := mapSet params (current.paramName.getD "unknown")
          (decodeURIComponent seg.name)
        findLoop query all rest (i + 1) pc params1 wildcard wIdx
      | none =>
        match current.wildcardChildNode with
        | some wc =>
          let wIdx1 := match wIdx with | none => some i | some _ => wIdx
          findLoop query all rest (i + 1) wc params (some wc) wIdx1
        | none =>
          match wildcard with
          | some w => some ⟨w, params, query, wildRemainder all wIdx⟩
          | none => none

/-- Embedding of `Trie.find`: splits off the query string, parses it, uses the
tokenized pathname (through the route cache in the source; by the cache
transparency theorem below this equals direct tokenization) and walks the
trie. -/
def find {T : Type} (t : TrieState T) (path : String) : Option (FindResult T) :=
  let segments := transformToSegment (pathnameOf path)
  let query := parseQuery (queryStringOf path)
  findLoop query segments segments 0 t.root [] none none

/-- Converts a live alias edge into a detached snapshot when the entry it
points at is pruned — the source keeps the stale object reference in
`paramChild`/`wildcardChild` after deleting the map entry. -/
def detachEdge {T : Type} (edge : Option (String ⊕ Node T)) (key : String)
    (snapshot : Node T) : Option (String ⊕ Node T) :=
  match edge with
  | some (Sum.inl k) => if k = key then some (Sum.inr snapshot) else some (Sum.inl k)
  | e => e

/-- Removes the child under `key` from the node's children, turning edges that
aliased it into frozen snapshots. -/
def pruneChild {T : Type} (n : Node T) (key : String) (snapshot : Node T) : Node T :=
  ((n.setChildren (mapDelete n.children key)).setParamChild
      (detachEdge n.paramChild key snapshot)).setWildcardChild
    (detachEdge n.wildcardChild key snapshot)

/-- Walk of `Trie.delete`: descend by literal segment name; `none` when the
route does not exist (node missing along the walk, or no handler at the
target).  On the way back up, a child left with no handler and no children is
pruned from its parent — the recursion's unwind mirrors the source's stack
cleanup loop, which stops at the first node that still has children or a
handler (a node that keeps a child is itself no longer prunable). -/
def deleteGo {T : Type} : List Segment → Node T → Option (Node T)
  | [], current =>
    match current.handler with
    | none => none
    | some _ => some (current.setHandler none)
  | seg :: rest, current =>
    let key := getSegmentName seg
    match mapGet current.children key with
    | none => none
    | some child =>
      match deleteGo rest child with
      | none => none
      | some child1 =>
        if child1.handler.isNone && child1.children.isEmpty then
          some (pruneChild current key child1)
        else
          some (current.setChildren (mapSet current.children key child1))

/-- Embedding of `Trie.delete`: handles the root spellings directly, else
walks to the target, removes its handler and prunes emptied ancestors.
Returns the updated state and whether a route was deleted; a failed delete
returns the state unchanged. -/
def deleteRoute {T : Type} (t : TrieState T) (path : String) : TrieState T × Bool :=
  let trimmed := jsTrim path
  if trimmed = "" ∨ trimmed = "/" then
    match t.root.handler with
    | some _ => (⟨t.root.setHandler none, t.hasContent⟩, true)
    | none => (t, false)
  else
    match deleteGo (transformToSegment trimmed) t.root with
    | none => (t, false)
    | some root1 => (⟨root1, t.hasContent⟩, true)

/-- Static-only walk through the children maps — the specification-side
notion of "the node registered at this sequence of segments". -/
def walkStatic {T : Type} : List Segment → Node T → Option (Node T)
  | [], n => some n
  | seg :: rest, n =>
    match mapGet n.children (getSegmentName seg) with
    | some c => walkStatic rest c
    | none => none

/-- Handler stored at the end of a static walk, if the walk succeeds. -/
def walkHandler {T : Type} (segs : List Segment) (n : Node T) : Option T :=
  match walkStatic segs n with
  | some m => m.handler
  | none => none

/-- Handler registered at a route path: the handler at the node reached by
walking the path's tokenization through the children maps. -/
def staticHandlerAt {T : Type} (t : TrieState T) (p : String) : Option T :=
  walkHandler (transformToSegment (jsTrim p)) t.root

/-- Observable projection of a `find` result, used to state concrete
evaluations over decidable components (the matched handler, the bound
parameters, the parsed query and the wildcard remainder). -/
def findObs {T : Type} (t : TrieState T) (p : String) :
    Option (Option T × List (String × String) × List (String × String) × String) :=
  (find t p).map fun r => (r.node.handler, r.params, r.query, r.wildCard)

/-- Type of `findObs` observations. -/
abbrev ObsT (T : Type) : Type :=
  Option (Option T × List (String × String) × List (String × String) × String)

/-! ### The route cache (`src/core/utils/cache.ts`)

An LRU cache with optional per-entry expiry.  The doubly-linked recency list
is embedded as an ordered entry list, head = least recently used, tail = most
recently used.  `Date.now()` is passed in explicitly as `now`. -/

/-- One cache entry: key, value and optional absolute expiry timestamp. -/
structure CacheEntry (V : Type) : Type where
  key : String
  value : V
  expiresAt : Option Nat

/-- Cache state: entries in recency order (oldest first) plus the
configuration the `Cache` constructor fixes. -/
structure CacheState (V : Type) : Type where
  entries : List (CacheEntry V)
  maxSize : Nat
  expiration : Option Nat

/-- A fresh cache with the given configuration.  The `Trie` constructor uses
the defaults `maxSize = 500`, `expiration = 10000` ms unless options are
given. -/
def CacheState.new (V : Type) (maxSize : Nat) (expiration : Option Nat) : CacheState V :=
  ⟨[], maxSize, expiration⟩

/-- First entry with the given key (the `map` lookup). -/
def cacheFind {V : Type} : List (CacheEntry V) → String → Option (CacheEntry V)
  | [], _ => none
  | e :: rest, k => if e.key = k then some e else cacheFind rest k

/-- Removes the entry with the given key (`Cache.delete`); keys are unique. -/
def eraseEntry {V : Type} : List (CacheEntry V) → String → List (CacheEntry V)
  | [], _ => []
  | e :: rest, k => if e.key = k then rest else e :: eraseEntry rest k

/-- The `isExpired` test: `expiresAt && expiresAt <= Date.now()`.  A zero
timestamp is falsy in JavaScript and therefore never expires. -/
def entryExpired {V : Type} (e : CacheEntry V) (now : Nat) : Bool :=
  match e.expiresAt with
  | some x => x ≠ 0 && x ≤ now
  | none => false

/-- Embedding of `Cache.get`: a missing key returns nothing; an expired entry
is deleted and returns nothing; a hit moves the entry to the most recently
used end and returns its value. -/
def cacheGet {V : Type} (c : CacheState V) (now : Nat) (key : String) :
    Option V × CacheState V :=
  match cacheFind c.entries key with
  | none => (none, c)
  | some e =>
    if entryExpired e now then (none, { c with entries := eraseEntry c.entries key })
    else (some e.value, { c with entries := eraseEntry c.entries key ++ [e] })

/-- Embedding of `Cache.set`: computes the expiry (an explicit ttl wins;
otherwise the configured default, whose zero value is falsy and yields no
expiry), updates an existing key in place and moves it to the tail, or evicts
the least recently used entry when full and appends the new one. -/
def cacheSet {V : Type} (c : CacheState V) (now : Nat) (key : String) (v : V)
    (ttl : Option Nat) : CacheState V :=
  let expiresAt : Option Nat :=
    match ttl with
    | some tv => some (now + tv)
    | none =>
      match c.expiration with
      | some ex => if ex = 0 then none else some (now + ex)
      | none => none
  match cacheFind c.entries key with
  | some _ => { c with entries := eraseEntry c.entries key ++ [⟨key, v, expiresAt⟩] }
  | none =>
    let entries1 :=
      if c.entries.length ≥ c.maxSize then
        match c.entries with
        | [] => c.entries
        | h :: _ => eraseEntry c.entries h.key
      else c.entries
    { c with entries := entries1 ++ [⟨key, v, expiresAt⟩] }

/-- Embedding of `Cache.cleanup`: the periodic sweep removes expired entries
from the least recently used end, stopping at the first valid one. -/
def cacheCleanup {V : Type} (c : CacheState V) (now : Nat) : CacheState V :=
  { c with entries := c.entries.dropWhile (fun e => entryExpired e now) }

/-- Embedding of `Trie.getSegmentsFromCache`: return the cached tokenization
on a hit, otherwise tokenize and store (with no explicit ttl). -/
def getSegmentsFromCache (c : CacheState (List Segment)) (now : Nat) (path : String) :
    List Segment × CacheState (List Segment) :=
  match cacheGet c now path with
  | (some segs, c1) => (segs, c1)
  | (none, c1) => (transformToSegment path, cacheSet c1 now path (transformToSegment path) none)

/-- An interleaving step against the route cache: a tokenization lookup at
some time, or a background cleanup sweep. -/
inductive CacheOp : Type where
  | lookup (now : Nat) (path : String) : CacheOp
  | sweep (now : Nat) : CacheOp

/-- Runs a sequence of cache operations, collecting the segment list produced
by each lookup. -/
def runCacheOps (c : CacheState (List Segment)) : List CacheOp → List (List Segment)
  | [] => []
  | CacheOp.lookup now p :: rest =>
    let r := getSegmentsFromCache c now p
    r.1 :: runCacheOps r.2 rest
  | CacheOp.sweep now :: rest => runCacheOps (cacheCleanup c now) rest

/-- The uncached reference behaviour: direct tokenization of each looked-up
path. -/
def directSegs : List CacheOp → List (List Segment)
  | [] => []
  | CacheOp.lookup _ p :: rest => transformToSegment p :: directSegs rest
  | CacheOp.sweep _ :: rest => directSegs rest

/-! ### Rooms (`src/core/rooms/room-container.ts`,
`src/core/rooms/room-manager.ts`, `Room` wrapper, `Message` enum in
`src/ws/socket.ts`)

Sockets are identified by their `id` string.  Event listeners are embedded as
subscription records tagged with the owning socket's id; firing a listener is
observed as the record appearing in the returned log.  The Registry's
`empty` listener closure (which calls `scheduleDeletion`) is distinguished
from opaque user listeners by its action tag. -/

/-- Room event kinds (`RoomEvent` keys). -/
inductive RoomEventKind : Type where
  | join : RoomEventKind
  | leave : RoomEventKind
  | message : RoomEventKind
  | empty : RoomEventKind
deriving DecidableEq, Repr

/-- What a listener's callback does: the Registry's deferred-deletion closure,
or an opaque user callback (`tag` just distinguishes listeners). -/
inductive SubAction : Type where
  | managerCleanup : SubAction
  | userListener (tag : Nat) : SubAction
deriving DecidableEq, Repr

/-- One subscription record: event kind, owning socket's id (`fn.id`), and
the callback it stands for. -/
structure Sub : Type where
  kind : RoomEventKind
  id : String
  action : SubAction
deriving DecidableEq, Repr

/-- Message payloads a room `send` can carry.  `obj` stands for a plain
object (not a Buffer, ArrayBuffer or array). -/
inductive Payload : Type where
  | str (s : String) : Payload
  | obj (o : String) : Payload
  | buffer (bytes : List Nat) : Payload
  | arrayBuffer (bytes : List Nat) : Payload
  | bufferList (buffers : List (List Nat)) : Payload
deriving DecidableEq, Repr

/-- The `Message` enum from `src/ws/socket.ts`. -/
inductive Message : Type where
  | String : Message
  | Object : Message
  | Buffer : Message
  | ArrayBuffer : Message
  | ListBuffer : Message
deriving DecidableEq, Repr

/-- The payload classification chain in `RoomContainer.send`: `Buffer.isBuffer`,
then `instanceof ArrayBuffer`, then `Array.isArray`, and everything else —
including strings — falls into the final `else` and becomes `Message.Object`.
The initial `let type = Message.String` in the source is dead: every branch
overwrites it. -/
def classifyMessage : Payload → Message
  | .buffer _ => Message.Buffer
  | .arrayBuffer _ => Message.ArrayBuffer
  | .bufferList _ => Message.ListBuffer
  | .str _ => Message.Object
  | .obj _ => Message.Object

/-- State of one `RoomContainer`: the member set (insertion-ordered) and the
subscription records of its event map. -/
structure RoomContainerState : Type where
  roommates : List String
  events : List Sub
deriving DecidableEq, Repr

/-- Member count (`RoomContainer.size`). -/
def RoomContainerState.size (c : RoomContainerState) : Nat := c.roommates.length

/-- Embedding of `RoomContainer.on`: appends a subscription record tagged
with the owning socket's id. -/
def containerOn (c : RoomContainerState) (sid : String) (kind : RoomEventKind)
    (action : SubAction) : RoomContainerState :=
  { c with events := c.events ++ [⟨kind, sid, action⟩] }

/-- Embedding of `RoomContainer.join`: a duplicate join is a no-op; otherwise
the socket is added and every `join` listener owned by another socket fires
(returned as the log).  The socket's close event is wired to `leave` here;
lifecycle closes appear as explicit leave operations in the model. -/
def containerJoin (c : RoomContainerState) (sid : String) :
    RoomContainerState × List Sub :=
  if sid ∈ c.roommates then (c, [])
  else
    let c1 : RoomContainerState := { c with roommates := c.roommates ++ [sid] }
    (c1, c1.events.filter (fun s => s.kind = RoomEventKind.join ∧ s.id ≠ sid))

/-- Embedding of `RoomContainer.leave`: a non-member leave is a no-op;
otherwise the socket is removed, `leave` listeners owned by other sockets
fire, then — if the room is now empty — every `empty` listener fires; the
departing socket's subscriptions are removed, and if the room is empty all
remaining subscriptions are cleared. -/
def containerLeave (c : RoomContainerState) (sid : String) :
    RoomContainerState × List Sub :=
  if sid ∈ c.roommates then
    let mates1 := c.roommates.filter (fun x => x ≠ sid)
    let firedLeave := c.events.filter (fun s => s.kind = RoomEventKind.leave ∧ s.id ≠ sid)
    let firedEmpty :=
      if mates1.length < 1 then c.events.filter (fun s => s.kind = RoomEventKind.empty)
      else []
    let events1 := c.events.filter (fun s => s.id ≠ sid)
    let events2 := if mates1.length < 1 then [] else events1
    (⟨mates1, events2⟩, firedLeave ++ firedEmpty)
  else (c, [])

/-- Embedding of `RoomContainer.send`: classifies the payload and fires every
`message` listener not owned by the sender, observed as the returned list of
(listener, payload, type) notifications.  The container state is unchanged. -/
def containerSend (c : RoomContainerState) (sid : String) (p : Payload) :
    List (Sub × Payload × Message) :=
  (c.events.filter (fun s => s.kind = RoomEventKind.message ∧ s.id ≠ sid)).map
    (fun s => (s, p, classifyMessage p))

/-- Composite state of the `RoomManager` (Registry): the room map, the
deferred-deletion timer map (the flag is false once the underlying timeout
has elapsed without deleting — the stale entry the source leaves behind) and
the configured `roomCleanupDelay`. -/
structure ManagerState : Type where
  rooms : List (String × RoomContainerState)
  cleanupTimers : List (String × Bool)
  roomCleanupDelay : Int
deriving DecidableEq, Repr

/-- A fresh Registry with the given cleanup delay (`roomCleanupDelay ?? 0`). -/
def ManagerState.new (delay : Int) : ManagerState := ⟨[], [], delay⟩

/-- Embedding of `RoomManager.cancelDeletion`: clears and forgets any timer
recorded for the room name. -/
def cancelDeletion (m : ManagerState) (name : String) : ManagerState :=
  match mapGet m.cleanupTimers name with
  | some _ => { m with cleanupTimers := mapDelete m.cleanupTimers name }
  | none => m

/-- Embedding of `RoomManager.scheduleDeletion`: with delay `<= 0` the room is
deleted immediately; otherwise any prior timer is cancelled and a fresh one
armed. -/
def scheduleDeletion (m : ManagerState) (name : String) : ManagerState :=
  if m.roomCleanupDelay ≤ 0 then { m with rooms := mapDelete m.rooms name }
  else
    let m1 := cancelDeletion m name
    { m1 with cleanupTimers := mapSet m1.cleanupTimers name true }

/-- Embedding of `RoomManager.join` composed with the `Room` wrapper
constructor (which joins the socket to the container): a missing room is
created with the Registry's `empty` listener subscribed under the joining
socket's id; an existing room has any pending deletion cancelled; either way
the socket then joins the container. -/
def mgrJoin (m : ManagerState) (sid name : String) : ManagerState × List Sub :=
  match mapGet m.rooms name with
  | none =>
    let c1 := containerOn ⟨[], []⟩ sid RoomEventKind.empty SubAction.managerCleanup
    let r := containerJoin c1 sid
    ({ m with rooms := mapSet m.rooms name r.1 }, r.2)
  | some c =>
    let m1 := cancelDeletion m name
    let r := containerJoin c sid
    ({ m1 with rooms := mapSet m1.rooms name r.1 }, r.2)

/-- A socket leaving a room (via `Room.leave` or its close event): the
container processes the leave, and each fired `empty` listener that is the
Registry's cleanup closure runs `scheduleDeletion` for the room name. -/
def mgrLeave (m : ManagerState) (sid name : String) : ManagerState × List Sub :=
  match mapGet m.rooms name with
  | none => (m, [])
  | some c =>
    let r := containerLeave c sid
    let m1 := { m with rooms := mapSet m.rooms name r.1 }
    (r.2.foldl
      (fun acc s =>
        if s.kind = RoomEventKind.empty ∧ s.action = SubAction.managerCleanup then
          scheduleDeletion acc name
        else acc) m1, r.2)

/-- The deferred-deletion timeout elapsing for a room name: only a pending
timer can fire, at most once; the callback re-checks that the room still
exists and is empty before deleting it (and only then forgets the timer
entry). -/
def timerFire (m : ManagerState) (name : String) : ManagerState :=
  match mapGet m.cleanupTimers name with
  | some true =>
    let m0 := { m with cleanupTimers := mapSet m.cleanupTimers name false }
    match mapGet m0.rooms name with
    | none => m0
    | some c =>
      if c.roommates.length > 0 then m0
      else { m0 with rooms := mapDelete m0.rooms name,
                     cleanupTimers := mapDelete m0.cleanupTimers name }
  | _ => m

/-- One externally observable room-subsystem event. -/
inductive RoomOp : Type where
  | join (sid name : String) : RoomOp
  | leave (sid name : String) : RoomOp
  | fire (name : String) : RoomOp

/-- Runs a sequence of joins, leaves and timer firings, accumulating the log
of fired listeners. -/
def runRoomOps (m : ManagerState) : List RoomOp → ManagerState × List Sub
  | [] => (m, [])
  | op :: rest =>
    let r1 : ManagerState × List Sub :=
      match op with
      | RoomOp.join s n => mgrJoin m s n
      | RoomOp.leave s n => mgrLeave m s n
      | RoomOp.fire n => (timerFire m n, [])
    let r2 := runRoomOps r1.1 rest
    (r2.1, r1.2 ++ r2.2)

/-- Number of `empty`-listener firings recorded in a log. -/
def countEmptyFired (log : List Sub) : Nat :=
  (log.filter (fun s => s.kind = RoomEventKind.empty)).length

/-! ### Shared lemmas -/

theorem mapGet_mapSet_self {α : Type} (l : List (String × α)) (k : String) (v : α) :
    mapGet (mapSet l k v) k = some v := by
  induction l with
  | nil => simp [mapSet, mapGet]
  | cons hd tl ih =>
    obtain ⟨k', v'⟩ := hd
    by_cases h : k' = k
    · simp [mapSet, mapGet, h]
    · simp [mapSet, mapGet, h, ih]

theorem mapGet_mapSet_ne {α : Type} (l : List (String × α)) {k k' : String} (v : α)
    (h : k ≠ k') : mapGet (mapSet l k v) k' = mapGet l k' := by
  induction l with
  | nil => simp [mapSet, mapGet, h]
  | cons hd tl ih =>
    obtain ⟨k₀, v₀⟩ := hd
    by_cases h₀ : k₀ = k
    · subst h₀; simp [mapSet, mapGet, h]
    · simp [mapSet, mapGet, h₀, ih]

/-- A fully static walk yields the walked node with the accumulated parameters
untouched, no wildcard involvement and an empty remainder: the static child is
always preferred, so neither the parameter nor the wildcard fallback fires. -/
theorem findLoop_of_walkStatic {T : Type} (q : List (String × String)) (all : List Segment) :
    ∀ (segs : List Segment) (i : Nat) (n m : Node T) (params : List (String × String)),
      walkStatic segs n = some m →
      findLoop q all segs i n params none none = some ⟨m, params, q, ""⟩ := by
  intro segs
  induction segs with
  | nil =>
    intro i n m params h
    simp [walkStatic] at h
    subst h
    simp [findLoop, wildRemainder]
  | cons seg rest ih =>
    intro i n m params h
    simp only [walkStatic, getSegmentName] at h
    cases hg : mapGet n.children seg.name with
    | none => rw [hg] at h; exact absurd h (by simp)
    | some c =>
      rw [hg] at h
      simpa [findLoop, hg] using ih (i + 1) c m params h

/-! ### Claim C1 — static routes win over parameter routes -/

/-- Claim C1: on a path whose every segment matches a static child, `find`
resolves to exactly that static chain's node with no parameter bound
(first conjunct, for every trie value); in particular with both
`/users/list` and `/users/:id` registered (either order), `find "/users/list"`
returns the static route's handler with no parameters, and never the
parameter route's handler when the two handlers differ (second conjunct). -/
theorem claim1_static_beats_param :
    (∀ (T : Type) (t : TrieState T) (path : String) (m : Node T),
      walkStatic (transformToSegment (pathnameOf path)) t.root = some m →
      find t path = some ⟨m, [], parseQuery (queryStringOf path), ""⟩) ∧
    (∀ (T : Type) (h1 h2 : T),
      (findObs ((create ((create (TrieState.new T) "/users/list" (some h1)).1)
          "/users/:id" (some h2)).1) "/users/list" : ObsT T) = some (some h1, [], [], "") ∧
      (findObs ((create ((create (TrieState.new T) "/users/:id" (some h2)).1)
          "/users/list" (some h1)).1) "/users/list" : ObsT T) = some (some h1, [], [], "") ∧
      (h1 ≠ h2 →
        ((findObs ((create ((create (TrieState.new T) "/users/list" (some h1)).1)
            "/users/:id" (some h2)).1) "/users/list" : ObsT T) ≠ some (some h2, [], [], "")))) := by
  constructor
  · intro T t path m h
    unfold find
    exact findLoop_of_walkStatic _ _ _ 0 t.root m [] h
  · intro T h1 h2
    refine ⟨rfl, rfl, fun hne heq => hne ?_⟩
    have hcomp : (findObs ((create ((create (TrieState.new T) "/users/list" (some h1)).1)
        "/users/:id" (some h2)).1) "/users/list" : ObsT T) = some (some h1, [], [], "") := rfl
    rw [hcomp] at heq
    simp at heq
    exact heq

/-- Witness for C1 at concrete inputs: the static walk for `/users/list`
succeeds on the two-route trie, and `find` returns the static handler `1`
with no parameters, never the parameter handler `2`. -/
theorem claim1_witness :
    find ((create ((create (TrieState.new Nat) "/users/list" (some 1)).1)
        "/users/:id" (some 2)).1) "/users/list"
      = some ⟨Node.mk "users/list" (some 1) [] none none none, [], [], ""⟩ ∧
    (findObs ((create ((create (TrieState.new Nat) "/users/list" (some 1)).1)
        "/users/:id" (some 2)).1) "/users/list" : ObsT Nat) ≠ some (some 2, [], [], "") :=
  ⟨claim1_static_beats_param.1 Nat _ "/users/list"
      (Node.mk "users/list" (some 1) [] none none none) rfl,
    (claim1_static_beats_param.2 Nat 1 2).2.2 (by decide)⟩

/-! ### Claim C3 — wildcard fallback and remainder -/

/-- A static walk over a prefix of the segments advances the loop without
touching parameters, wildcard bookkeeping or the depth beyond the prefix
length. -/
theorem findLoop_append_walkStatic {T : Type} (q : List (String × String))
    (all : List Segment) :
    ∀ (pre rest : List Segment) (i : Nat) (n n' : Node T)
      (params : List (String × String)) (wc : Option (Node T)) (wIdx : Option Nat),
      walkStatic pre n = some n' →
      findLoop q all (pre ++ rest) i n params wc wIdx =
        findLoop q all rest (i + pre.length) n' params wc wIdx := by
  intro pre
  induction pre with
  | nil =>
    intro rest i n n' params wc wIdx h
    simp [walkStatic] at h
    subst h
    simp
  | cons seg tl ih =>
    intro rest i n n' params wc wIdx h
    simp only [walkStatic, getSegmentName] at h
    cases hg : mapGet n.children seg.name with
    | none => rw [hg] at h; exact absurd h (by simp)
    | some c =>
      rw [hg] at h
      have hrec := ih rest (i + 1) c n' params wc wIdx h
      simp only [List.cons_append, findLoop, hg, List.length_cons]
      rw [show i + (tl.length + 1) = i + 1 + tl.length by omega]
      exact hrec

/-- At a childless node with no parameter or wildcard edge, the loop either
terminates (no segments left) or gets stuck; in both cases it returns the
current node — which here is also the recorded wildcard — with the remainder
computed from the recorded wildcard depth. -/
theorem findLoop_leaf {T : Type} (q : List (String × String)) (all : List Segment)
    (w : Node T) (hc : w.children = []) (hp : w.paramChild = none)
    (hw : w.wildcardChild = none) :
    ∀ (segs : List Segment) (i : Nat) (params : List (String × String)) (wIdx : Option Nat),
      findLoop q all segs i w params (some w) wIdx =
        some ⟨w, params, q, wildRemainder all wIdx⟩ := by
  intro segs i params wIdx
  cases segs with
  | nil => simp [findLoop]
  | cons seg rest =>
    simp [findLoop, hc, mapGet, Node.paramChildNode, Node.wildcardChildNode, Node.resolve,
      hp, hw]

/-- Claim C3, first conjunct (for every trie value): when the static walk over
a prefix reaches a node where neither a static nor a parameter child matches
the next segment but a wildcard child (a leaf) exists, `find` returns that
wildcard node with the remainder equal to the slash-joined tail of segments
from the depth where wildcarding began.  Second conjunct: concretely, with
`/files/*` registered, `find "/files/a/b/c"` yields the wildcard handler with
remainder `"a/b/c"`, and with no wildcard registered a failed match yields no
result (`find "/missing"` on a `/users/list`-only trie). -/
theorem claim3_wildcard_remainder :
    (∀ (T : Type) (t : TrieState T) (path : String) (pre : List Segment)
        (tseg : Segment) (more : List Segment) (n w : Node T),
      transformToSegment (pathnameOf path) = pre ++ tseg :: more →
      walkStatic pre t.root = some n →
      mapGet n.children tseg.name = none →
      n.paramChildNode = none →
      n.wildcardChildNode = some w →
      w.children = [] → w.paramChild = none → w.wildcardChild = none →
      find t path =
        some ⟨w, [], parseQuery (queryStringOf path),
          joinSlash ((tseg :: more).map Segment.name)⟩) ∧
    (∀ (T : Type) (h : T),
      (findObs ((create (TrieState.new T) "/files/*" (some h)).1) "/files/a/b/c" : ObsT T)
        = some (some h, [], [], "a/b/c") ∧
      (findObs ((create (TrieState.new T) "/users/list" (some h)).1) "/missing" : ObsT T)
        = none) := by
  constructor
  · intro T t path pre tseg more n w hsegs hwalk hstat hparam hwild hc hp hw
    unfold find
    rw [hsegs]
    rw [findLoop_append_walkStatic _ _ pre (tseg :: more) 0 t.root n [] none none hwalk]
    simp only [findLoop, hstat, hparam, hwild]
    rw [findLoop_leaf _ _ w hc hp hw more (0 + pre.length + 1) [] (some (0 + pre.length))]
    simp [wildRemainder, hsegs, List.drop_left]
  · intro T h
    exact ⟨rfl, rfl⟩

/-- Witness for C3: the `/files/*` trie at path `/files/a/b/c`; the prefix
walk reaches the `files` node, `a` matches neither statically nor as a
parameter, the wildcard leaf is taken and the remainder is `a/b/c`. -/
theorem claim3_witness :
    find ((create (TrieState.new Nat) "/files/*" (some 7)).1) "/files/a/b/c"
      = some ⟨Node.mk "files/*" (some 7) [] none none none, [],
          parseQuery (queryStringOf "/files/a/b/c"),
          joinSlash ([⟨"a", Flag.Normal⟩, ⟨"b", Flag.Normal⟩,
            ⟨"c", Flag.Normal⟩].map Segment.name)⟩ :=
  claim3_wildcard_remainder.1 Nat _ "/files/a/b/c"
    [⟨"files", Flag.Normal⟩] ⟨"a", Flag.Normal⟩ [⟨"b", Flag.Normal⟩, ⟨"c", Flag.Normal⟩]
    (Node.mk "files/*" none [("*", Node.mk "files/*" (some 7) [] none none none)]
      none (some (Sum.inl "*")) none)
    (Node.mk "files/*" (some 7) [] none none none)
    rfl rfl rfl rfl rfl rfl rfl rfl

/-! ### Claim C7 — parameter binding and query parsing -/

/-- The query mapping carried by a `find` result is exactly the `query`
argument the loop was started with. -/
theorem findLoop_query_eq {T : Type} (q : List (String × String)) (all : List Segment) :
    ∀ (segs : List Segment) (i : Nat) (n : Node T) (params : List (String × String))
      (wc : Option (Node T)) (wIdx : Option Nat) (r : FindResult T),
      findLoop q all segs i n params wc wIdx = some r → r.query = q := by
  intro segs
  induction segs with
  | nil =>
    intro i n params wc wIdx r h
    simp [findLoop] at h
    rw [← h]
  | cons seg rest ih =>
    intro i n params wc wIdx r h
    simp only [findLoop] at h
    cases hg : mapGet n.children seg.name with
    | some next =>
      rw [hg] at h
      exact ih (i + 1) next params wc wIdx r h
    | none =>
      rw [hg] at h
      cases hp : n.paramChildNode with
      | some pc =>
        rw [hp] at h
        exact ih (i + 1) pc _ wc wIdx r h
      | none =>
        rw [hp] at h
        cases hw : n.wildcardChildNode with
        | some wcn =>
          rw [hw] at h
          exact ih (i + 1) wcn params (some wcn) _ r h
        | none =>
          rw [hw] at h
          cases wc with
          | some w => simp at h; rw [← h]
          | none => simp at h

/-- Claim C7.  First conjunct (every trie, every path): the query mapping of
any `find` result is `parseQuery` of the request's query-string part, which
supports `%`-decoding and empty-value parameters.  Second conjunct (for every
request path tokenizing to `users` followed by one more segment that is not
the literal `:id`, against a registered `/users/:id`): the parameter `id` is
bound to the percent-decoded segment text.  Third conjunct: the concrete
examples — `/users/42?x=1&y=2` gives `params = {id: "42"}`,
`query = {x: "1", y: "2"}`, and a percent-encoded request decodes both the
matched parameter and the query values, with empty-value parameters kept. -/
theorem claim7_params_and_query :
    (∀ (T : Type) (t : TrieState T) (path : String) (r : FindResult T),
      find t path = some r → r.query = parseQuery (queryStringOf path)) ∧
    (∀ (T : Type) (h : T) (path : String) (seg : Segment),
      transformToSegment (pathnameOf path) = [⟨"users", Flag.Normal⟩, seg] →
      seg.name ≠ ":id" →
      find ((create (TrieState.new T) "/users/:id" (some h)).1) path =
        some ⟨Node.mk "users/:id" (some h) [] none none none,
          [("id", decodeURIComponent seg.name)], parseQuery (queryStringOf path), ""⟩) ∧
    (∀ (T : Type) (h : T),
      (findObs ((create (TrieState.new T) "/users/:id" (some h)).1) "/users/42?x=1&y=2"
          : ObsT T) = some (some h, [("id", "42")], [("x", "1"), ("y", "2")], "") ∧
      (findObs ((create (TrieState.new T) "/users/:id" (some h)).1)
          "/users/a%20b?m=h%65y&flag" : ObsT T)
        = some (some h, [("id", "a b")], [("m", "hey"), ("flag", "")], "")) := by
  refine ⟨?_, ?_, fun T h => ⟨rfl, rfl⟩⟩
  · intro T t path r hfind
    unfold find at hfind
    exact findLoop_query_eq _ _ _ 0 t.root [] none none r hfind
  · intro T h path seg hsegs hne
    have ht : (create (TrieState.new T) "/users/:id" (some h)).1 =
        ⟨Node.mk "/" none
          [("users", Node.mk "users/:id" none
            [(":id", Node.mk "users/:id" (some h) [] none none none)]
            (some (Sum.inl ":id")) none (some "id"))] none none none, true⟩ := rfl
    unfold find
    rw [ht, hsegs]
    have hid : (":id" = seg.name) = False := eq_false (fun hh => hne hh.symm)
    simp [findLoop, mapGet, Node.children, Node.paramChildNode, Node.wildcardChildNode,
      Node.resolve, Node.paramChild, Node.paramName, hid, mapSet, wildRemainder]

/-- Witness for C7: the registered `/users/:id` trie at
`/users/42?x=1&y=2` binds `id` to `"42"` and parses the query. -/
theorem claim7_witness :
    find ((create (TrieState.new Nat) "/users/:id" (some 5)).1) "/users/42?x=1&y=2" =
      some ⟨Node.mk "users/:id" (some 5) [] none none none,
        [("id", decodeURIComponent "42")],
        parseQuery (queryStringOf "/users/42?x=1&y=2"), ""⟩ :=
  (claim7_params_and_query.2.1) Nat 5 "/users/42?x=1&y=2" ⟨"42", Flag.Normal⟩ rfl
    (by decide)

/-! ### Claim C9 — a sole-segment wildcard also populates the root handler -/

/-- For every trie state, `find "/"` tokenizes to no segments and returns the
root node with no parameters, query or remainder. -/
theorem find_root_slash {T : Type} (t : TrieState T) :
    find t "/" = some ⟨t.root, [], [], ""⟩ := rfl

/-- Counterexample for C9 as stated: the root-fill is guarded by
`if (!this.root.handler)`, so for a trie that already has `/` registered,
registering `/*` succeeds without error yet the root keeps its old handler
and `find "/"` resolves to that old handler, not to the wildcard route's
handler. -/
theorem claim9_counterexample :
    (create (create (TrieState.new Nat) "/" (some 10)).1 "/*" (some 7)).2 = none ∧
    (create (create (TrieState.new Nat) "/" (some 10)).1 "/*" (some 7)).1.root.handler
      = some 10 ∧
    (findObs (create (create (TrieState.new Nat) "/" (some 10)).1 "/*" (some 7)).1 "/"
        : ObsT Nat) = some (some 10, [], [], "") ∧
    (findObs (create (create (TrieState.new Nat) "/" (some 10)).1 "/*" (some 7)).1 "/"
        : ObsT Nat) ≠ some (some 7, [], [], "") :=
  ⟨by decide, by decide, by decide, by decide⟩

/-- Claim C9 as amended: for every trie whose root holds no handler,
successfully registering a route that tokenizes to the single wildcard
segment (path `/*` or `*`) also sets the root handler, so `find "/"` then
resolves to that handler.  (When the root already holds a handler, the
`if (!this.root.handler)` guard skips the fill — see the counterexample.) -/
theorem claim9_root_wildcard (T : Type) (t : TrieState T) (p : String) (h : T)
    (hroot : t.root.handler = none)
    (hne : jsTrim p ≠ "") (hns : jsTrim p ≠ "/")
    (hseg : transformToSegment (jsTrim p) = [⟨"*", Flag.WildCard⟩])
    (hok : (create t p (some h)).2 = none) :
    (create t p (some h)).1.root.handler = some h ∧
    find (create t p (some h)).1 "/" =
      some ⟨(create t p (some h)).1.root, [], [], ""⟩ := by
  refine ⟨?_, find_root_slash _⟩
  obtain ⟨root, hasC⟩ := t
  obtain ⟨r, hd0, ch, pc, wc, pn⟩ := root
  simp only [Node.handler] at hroot
  subst hroot
  unfold create at hok ⊢
  dsimp only at hok ⊢
  rw [if_neg (not_or.mpr ⟨hne, hns⟩), hseg] at hok ⊢
  dsimp only [getSegmentName] at hok ⊢
  rw [if_pos rfl] at hok ⊢
  unfold createSingleWildcard at hok ⊢
  dsimp only [Node.children_mk, getSegmentName] at hok ⊢
  cases hg : mapGet ch "*" with
  | some child =>
    rw [hg] at hok
    dsimp only at hok ⊢
    cases hch : child.handler with
    | some v =>
      rw [hch] at hok
      simp at hok
    | none =>
      rw [hch] at hok
      rfl
  | none =>
    rw [hg] at hok
    dsimp only at hok ⊢
    cases hwc : ((Node.mk r (none : Option T) ch pc wc pn).setChildren
        (mapSet ch "*" (Node.mk (joinSlash (List.map Segment.name
          [(⟨"*", Flag.WildCard⟩ : Segment)])) none [] none none
          none))).wildcardChildNode.bind Node.handler with
    | some v =>
      rw [hwc] at hok
      simp at hok
    | none =>
      rw [hwc] at hok
      rfl

/-- Witness for C9: registering `/*` on a fresh trie sets the root handler and
`find "/"` resolves to it. -/
theorem claim9_witness :
    (create (TrieState.new Nat) "/*" (some 7)).1.root.handler = some 7 ∧
    find (create (TrieState.new Nat) "/*" (some 7)).1 "/" =
      some ⟨(create (TrieState.new Nat) "/*" (some 7)).1.root, [], [], ""⟩ :=
  claim9_root_wildcard Nat (TrieState.new Nat) "/*" 7 rfl (by decide) (by decide)
    (by decide) (by decide)

/-! ### Claim C10 — create is not atomic on error -/

/-- Claim C10: with `/a/:id` registered, `create "/a/:name"` throws the
parameter conflict, yet the trie differs from its pre-call state — the
`_hasContent` flag is set and the `:name` child created before the throw
remains (the static walk to it fails before the call and succeeds after) —
so that repeating the identical conflicting create afterwards succeeds
without error and registers the handler. -/
theorem claim10_create_not_atomic :
    ((create (create (TrieState.new Nat) "/a/:id" (some 1)).1 "/a/:name" (some 2)).2).isSome
        = true ∧
    (create (create (TrieState.new Nat) "/a/:id" (some 1)).1 "/a/:name" (some 2)).1.hasContent
        = true ∧
    (walkStatic (transformToSegment "/a/:name")
        (create (TrieState.new Nat) "/a/:id" (some 1)).1.root).isNone = true ∧
    (walkStatic (transformToSegment "/a/:name")
        (create (create (TrieState.new Nat) "/a/:id" (some 1)).1 "/a/:name"
          (some 2)).1.root).isSome = true ∧
    (create (create (create (TrieState.new Nat) "/a/:id" (some 1)).1 "/a/:name" (some 2)).1
        "/a/:name" (some 2)).2 = none ∧
    staticHandlerAt (create (create (create (TrieState.new Nat) "/a/:id" (some 1)).1
        "/a/:name" (some 2)).1 "/a/:name" (some 2)).1 "/a/:name" = some 2 := by
  decide

/-! ### Claim C2 — registration conflicts -/

theorem Node.children_setChildren {T : Type} (n : Node T) (c) :
    (n.setChildren c).children = c := by cases n; rfl

theorem Node.children_setHandler {T : Type} (n : Node T) (h) :
    (n.setHandler h).children = n.children := by cases n; rfl

theorem Node.children_setParamChild {T : Type} (n : Node T) (e) :
    (n.setParamChild e).children = n.children := by cases n; rfl

theorem Node.children_setWildcardChild {T : Type} (n : Node T) (e) :
    (n.setWildcardChild e).children = n.children := by cases n; rfl

theorem Node.children_setParamName {T : Type} (n : Node T) (e) :
    (n.setParamName e).children = n.children := by cases n; rfl

theorem Node.handler_setHandler {T : Type} (n : Node T) (h) :
    (n.setHandler h).handler = h := by cases n; rfl

theorem Node.handler_setChildren {T : Type} (n : Node T) (c) :
    (n.setChildren c).handler = n.handler := by cases n; rfl

theorem Node.handler_setParamChild {T : Type} (n : Node T) (e) :
    (n.setParamChild e).handler = n.handler := by cases n; rfl

theorem Node.handler_setWildcardChild {T : Type} (n : Node T) (e) :
    (n.setWildcardChild e).handler = n.handler := by cases n; rfl

theorem Node.handler_setParamName {T : Type} (n : Node T) (e) :
    (n.setParamName e).handler = n.handler := by cases n; rfl

theorem Node.handler_setRoutePath {T : Type} (n : Node T) (r) :
    (n.setRoutePath r).handler = n.handler := by cases n; rfl

/-- Registering over a fully existing static chain whose target node holds a
handler always fails with the duplicate-route message: the walk takes only
existing children (no conflict checks fire on the way) and the final
duplicate check throws. -/
theorem createGo_conflict {T : Type} (np : String) (h' : Option T) :
    ∀ (segs : List Segment) (n m : Node T),
      segs ≠ [] → walkStatic segs n = some m → m.handler.isSome →
      (createGo np h' segs n).2 = some (conflictMessage np none) := by
  intro segs
  induction segs with
  | nil => intro n m hne _ _; exact absurd rfl hne
  | cons seg rest ih =>
    intro n m _ hwalk hh
    simp only [walkStatic] at hwalk
    cases hg : mapGet n.children (getSegmentName seg) with
    | none => rw [hg] at hwalk; exact absurd hwalk (by simp)
    | some c =>
      rw [hg] at hwalk
      simp only [createGo, hg]
      cases rest with
      | nil =>
        simp only [walkStatic] at hwalk
        obtain rfl : c = m := by injection hwalk
        obtain ⟨v, hv⟩ := Option.isSome_iff_exists.mp hh
        simp only [createGo, hv]
      | cons r2 rs =>
        exact ih c m (by simp) hwalk hh

/-- A successful `createGo` leaves the handler at the end of the static walk
over the same segments: the created chain is reachable through the children
maps it just populated. -/
theorem createGo_success {T : Type} (np : String) (h : T) :
    ∀ (segs : List Segment) (n : Node T),
      (createGo np (some h) segs n).2 = none →
      walkHandler segs (createGo np (some h) segs n).1 = some h := by
  intro segs
  induction segs with
  | nil =>
    intro n hok
    simp only [createGo] at hok ⊢
    cases hn : n.handler with
    | some v => rw [hn] at hok; simp at hok
    | none => simp [walkHandler, walkStatic, Node.handler_setHandler]
  | cons seg rest ih =>
    intro n hok
    simp only [createGo] at hok ⊢
    cases hg : mapGet n.children (getSegmentName seg) with
    | some next =>
      rw [hg] at hok
      dsimp only at hok ⊢
      simp only [walkHandler, walkStatic, Node.children_setChildren, getSegmentName,
        mapGet_mapSet_self]
      simpa [walkHandler] using ih next hok
    | none =>
      rw [hg] at hok
      dsimp only at hok ⊢
      cases hf : seg.flag with
      | Param =>
        rw [hf] at hok
        dsimp only at hok ⊢
        cases hpc : ((n.setChildren (mapSet n.children (getSegmentName seg)
            (Node.mk np none [] none none none))).paramChildNode).bind Node.handler with
        | some v => rw [hpc] at hok; simp at hok
        | none =>
          rw [hpc] at hok
          dsimp only at hok ⊢
          simp only [walkHandler, walkStatic, Node.children_setChildren, getSegmentName,
            mapGet_mapSet_self]
          simpa [walkHandler] using ih (Node.mk np none [] none none none) hok
      | WildCard =>
        rw [hf] at hok
        dsimp only at hok ⊢
        cases hwc : ((n.setChildren (mapSet n.children (getSegmentName seg)
            (Node.mk np none [] none none none))).wildcardChildNode).bind Node.handler with
        | some v => rw [hwc] at hok; simp at hok
        | none =>
          rw [hwc] at hok
          dsimp only at hok ⊢
          simp only [walkHandler, walkStatic, Node.children_setChildren, getSegmentName,
            mapGet_mapSet_self]
          simpa [walkHandler] using ih ((Node.mk np none [] none none none).setRoutePath np) hok
      | Normal =>
        rw [hf] at hok
        dsimp only at hok ⊢
        simp only [walkHandler, walkStatic, Node.children_setChildren, getSegmentName,
          mapGet_mapSet_self]
        simpa [walkHandler] using ih (Node.mk np none [] none none none) hok

/-- Unpacks a successful handler walk. -/
theorem walkHandler_some {T : Type} {segs : List Segment} {n : Node T} {h : T}
    (hw : walkHandler segs n = some h) :
    ∃ m, walkStatic segs n = some m ∧ m.handler = some h := by
  unfold walkHandler at hw
  cases hws : walkStatic segs n with
  | none => rw [hws] at hw; simp at hw
  | some m => rw [hws] at hw; exact ⟨m, rfl, hw⟩

/-- Tokenizing a root spelling gives no segments. -/
theorem transformToSegment_root {p : String} (hp : jsTrim p = "" ∨ jsTrim p = "/") :
    transformToSegment (jsTrim p) = [] := by
  cases hp with
  | inl hp => rw [hp]; rfl
  | inr hp => rw [hp]; rfl

/-- Registering a path whose tokenization is nonempty, when a handler is
already registered at that path, fails with the duplicate-route message
(which names the — normalized, hence shared — conflicting path). -/
theorem create_conflict_registered {T : Type} (t : TrieState T) (p : String)
    (h' : Option T) (h : T)
    (hne : transformToSegment (jsTrim p) ≠ [])
    (hreg : staticHandlerAt t p = some h) :
    (create t p h').2 =
      some (conflictMessage
        (joinSlash ((transformToSegment (jsTrim p)).map Segment.name)) none) := by
  have hroot : ¬(jsTrim p = "" ∨ jsTrim p = "/") := fun hp =>
    hne (transformToSegment_root hp)
  unfold staticHandlerAt at hreg
  obtain ⟨m, hwalk, hh⟩ := walkHandler_some hreg
  unfold create
  dsimp only
  rw [if_neg hroot]
  cases hsegs : transformToSegment (jsTrim p) with
  | nil => exact absurd hsegs hne
  | cons seg rest =>
    rw [hsegs] at hwalk
    cases rest with
    | nil =>
      dsimp only
      cases hf : seg.flag with
      | WildCard =>
        rw [if_pos rfl]
        simp only [walkStatic, getSegmentName] at hwalk
        cases hg : mapGet t.root.children seg.name with
        | none => rw [hg] at hwalk; exact absurd hwalk (by simp)
        | some c =>
          rw [hg] at hwalk
          simp only [walkStatic] at hwalk
          obtain rfl : c = m := by injection hwalk
          unfold createSingleWildcard
          dsimp only [getSegmentName]
          rw [hg]
          dsimp only
          rw [hh]
      | Param =>
        rw [if_neg (by simp)]
        exact createGo_conflict _ h' [seg] t.root m (by simp) hwalk (by simp [hh])
      | Normal =>
        rw [if_neg (by simp)]
        exact createGo_conflict _ h' [seg] t.root m (by simp) hwalk (by simp [hh])
    | cons r2 rs =>
      exact createGo_conflict _ h' (seg :: r2 :: rs) t.root m (by simp) hwalk (by simp [hh])

/-- Registering the root spelling (`''` or `/`) when the root already holds a
handler fails with the duplicate-route message. -/
theorem create_conflict_root {T : Type} (t : TrieState T) (p : String)
    (h' : Option T) (h : T)
    (hp : jsTrim p = "" ∨ jsTrim p = "/") (hreg : t.root.handler = some h) :
    (create t p h').2 = some (conflictMessage (jsTrim p) none) := by
  unfold create
  dsimp only
  rw [if_pos hp, hreg]

/-- A successful single-wildcard registration leaves the handler on the `*`
child. -/
theorem createSingleWildcard_success {T : Type} (t : TrieState T) (h : T)
    (np : String) (seg : Segment)
    (hok : (createSingleWildcard t (some h) np seg).2 = none) :
    walkHandler [seg] (createSingleWildcard t (some h) np seg).1.root = some h := by
  obtain ⟨root, hasC⟩ := t
  obtain ⟨r, hd0, ch, pc, wc, pn⟩ := root
  unfold createSingleWildcard at hok ⊢
  dsimp only [Node.children_mk] at hok ⊢
  cases hg : mapGet ch (getSegmentName seg) with
  | some child =>
    rw [hg] at hok
    dsimp only at hok ⊢
    cases hch : child.handler with
    | some v => rw [hch] at hok; simp at hok
    | none =>
      rw [hch] at hok
      cases hd0 with
      | none =>
        simp [walkHandler, walkStatic, Node.handler_mk, Node.setHandler_mk,
          Node.setChildren_mk, Node.children_mk, mapGet_mapSet_self,
          Node.handler_setHandler]
      | some v0 =>
        simp [walkHandler, walkStatic, Node.handler_mk, Node.setHandler_mk,
          Node.setChildren_mk, Node.children_mk, mapGet_mapSet_self,
          Node.handler_setHandler]
  | none =>
    rw [hg] at hok
    dsimp only at hok ⊢
    cases hwc : (((Node.mk r hd0 ch pc wc pn).setChildren (mapSet ch (getSegmentName seg)
        (Node.mk np none [] none none none))).wildcardChildNode).bind Node.handler with
    | some v =>
      rw [hwc] at hok; simp at hok
    | none =>
      rw [hwc] at hok
      cases hd0 with
      | none =>
        simp [walkHandler, walkStatic, Node.handler_mk, Node.setHandler_mk,
          Node.setChildren_mk, Node.setWildcardChild_mk, Node.setRoutePath_mk,
          Node.children_mk, mapGet_mapSet_self, Node.handler_setHandler]
      | some v0 =>
        simp [walkHandler, walkStatic, Node.handler_mk, Node.setHandler_mk,
          Node.setChildren_mk, Node.setWildcardChild_mk, Node.setRoutePath_mk,
          Node.children_mk, mapGet_mapSet_self, Node.handler_setHandler]

/-- A successful `create` leaves the handler registered at the path: walking
the path's tokenization afterwards finds it. -/
theorem create_success_registered {T : Type} (t : TrieState T) (p : String) (h : T)
    (hok : (create t p (some h)).2 = none) :
    staticHandlerAt (create t p (some h)).1 p = some h := by
  unfold staticHandlerAt
  unfold create at hok ⊢
  dsimp only at hok ⊢
  by_cases hroot : jsTrim p = "" ∨ jsTrim p = "/"
  · rw [if_pos hroot] at hok ⊢
    cases hh : t.root.handler with
    | some v => rw [hh] at hok; simp at hok
    | none =>
      rw [transformToSegment_root hroot]
      simp [walkHandler, walkStatic, Node.handler_setHandler]
  · rw [if_neg hroot] at hok ⊢
    cases hsegs : transformToSegment (jsTrim p) with
    | nil =>
      rw [hsegs] at hok
      simp [walkHandler, walkStatic, Node.handler_setHandler]
    | cons seg rest =>
      rw [hsegs] at hok
      cases rest with
      | nil =>
        dsimp only at hok ⊢
        cases hf : seg.flag with
        | WildCard =>
          rw [hf] at hok
          rw [if_pos rfl] at hok ⊢
          exact createSingleWildcard_success _ h _ seg hok
        | Param =>
          rw [hf] at hok
          rw [if_neg (by simp)] at hok ⊢
          exact createGo_success _ h [seg] t.root hok
        | Normal =>
          rw [hf] at hok
          rw [if_neg (by simp)] at hok ⊢
          exact createGo_success _ h [seg] t.root hok
      | cons r2 rs =>
        exact createGo_success _ h (seg :: r2 :: rs) t.root hok

/-- Claim C2 as amended.  (i) Registering a path with at least one segment
whose target node already holds a handler fails with the duplicate-route
message — the normalized path it names is shared by both registrations.
(ii) The same for the root spellings `''` and `/`.  (iii) Registering the
same path twice with different handlers always fails for such paths.
(iv) Registering a second parameter name at a position whose parameter child
holds a handler fails with a message naming both paths.  (v) Registering a
second wildcard at the same position fails (it hits the duplicate check). -/
theorem claim2_conflict_rules :
    (∀ (T : Type) (t : TrieState T) (p : String) (h' : Option T) (h : T),
      transformToSegment (jsTrim p) ≠ [] →
      staticHandlerAt t p = some h →
      (create t p h').2 =
        some (conflictMessage
          (joinSlash ((transformToSegment (jsTrim p)).map Segment.name)) none)) ∧
    (∀ (T : Type) (t : TrieState T) (p : String) (h' : Option T) (h : T),
      (jsTrim p = "" ∨ jsTrim p = "/") → t.root.handler = some h →
      (create t p h').2 = some (conflictMessage (jsTrim p) none)) ∧
    (∀ (T : Type) (t : TrieState T) (p : String) (h1 h2 : T),
      (transformToSegment (jsTrim p) ≠ [] ∨ jsTrim p = "" ∨ jsTrim p = "/") →
      (create t p (some h1)).2 = none →
      ((create (create t p (some h1)).1 p (some h2)).2).isSome = true) ∧
    (∀ (T : Type) (h1 h2 : T),
      (create ((create (TrieState.new T) "/users/:id" (some h1)).1) "/users/:name"
          (some h2)).2
        = some (conflictMessage "users/:name" (some "users/:id"))) ∧
    (∀ (T : Type) (h1 h2 : T),
      (create ((create (TrieState.new T) "/files/*" (some h1)).1) "/files/*" (some h2)).2
        = some (conflictMessage "files/*" none)) := by
  refine ⟨fun T t p h' h => create_conflict_registered t p h' h,
    fun T t p h' h => create_conflict_root t p h' h, ?_,
    fun T h1 h2 => rfl, fun T h1 h2 => rfl⟩
  intro T t p h1 h2 hp hok
  have hreg := create_success_registered t p h1 hok
  cases hp with
  | inl hne =>
    rw [create_conflict_registered _ p (some h2) h1 hne hreg]
    rfl
  | inr hsp =>
    unfold staticHandlerAt at hreg
    rw [transformToSegment_root hsp] at hreg
    simp only [walkHandler, walkStatic] at hreg
    rw [create_conflict_root _ p (some h2) h1 hsp hreg]
    rfl

/-- Counterexample for C2 as stated.  `'//'` tokenizes to zero segments
without being spelled `''` or `/`: registering it twice with different
handlers raises no error and silently overwrites the root handler, refuting
both "the target node already holds a handler ⟹ create fails" and
"registering the same path twice with different handlers always fails".
And after `/a/:id/b`, the position `a` has the parameter child `:id` (with no
handler); registering `/a/:name` there succeeds, refuting "a parameter
segment registered at a position that already has a different parameter
child always fails". -/
theorem claim2_counterexample :
    (create (create (TrieState.new Nat) "//" (some 1)).1 "//" (some 2)).2 = none ∧
    (create (create (TrieState.new Nat) "//" (some 1)).1 "//" (some 2)).1.root.handler
      = some 2 ∧
    (create (create (TrieState.new Nat) "/a/:id/b" (some 1)).1 "/a/:name" (some 2)).2
      = none := by
  decide

/-- Witness for C2 at concrete inputs: duplicate registrations of
`/users/list`, of `/`, and of `/x/y` all fail. -/
theorem claim2_witness :
    (create (create (TrieState.new Nat) "/users/list" (some 3)).1 "/users/list"
        (some 4)).2 = some (conflictMessage "users/list" none) ∧
    (create (create (TrieState.new Nat) "/" (some 3)).1 "/" (some 4)).2
      = some (conflictMessage "/" none) ∧
    ((create (create (TrieState.new Nat) "/x/y" (some 3)).1 "/x/y" (some 4)).2).isSome
      = true :=
  ⟨claim2_conflict_rules.1 Nat (create (TrieState.new Nat) "/users/list" (some 3)).1
      "/users/list" (some 4) 3 (by decide) (by decide),
   claim2_conflict_rules.2.1 Nat (create (TrieState.new Nat) "/" (some 3)).1
      "/" (some 4) 3 (Or.inr (by decide)) (by decide),
   claim2_conflict_rules.2.2.1 Nat (TrieState.new Nat) "/x/y" 3 4 (Or.inl (by decide))
      (by decide)⟩

/-! ### Claim C6 — delete -/

/-- One-step unfolding of `walkHandler`. -/
theorem walkHandler_cons {T : Type} (seg : Segment) (rest : List Segment) (n : Node T) :
    walkHandler (seg :: rest) n =
      match mapGet n.children (getSegmentName seg) with
      | some c => walkHandler rest c
      | none => none := by
  cases hg : mapGet n.children (getSegmentName seg) with
  | some c => simp [walkHandler, walkStatic, hg]
  | none => simp [walkHandler, walkStatic, hg]

/-- When the route is not registered (walk fails or the target holds no
handler), the delete walk reports failure. -/
theorem deleteGo_none {T : Type} :
    ∀ (segs : List Segment) (n : Node T),
      walkHandler segs n = none → deleteGo segs n = none := by
  intro segs
  induction segs with
  | nil =>
    intro n h
    simp only [walkHandler, walkStatic] at h
    simp [deleteGo, h]
  | cons seg rest ih =>
    intro n h
    rw [walkHandler_cons] at h
    simp only [deleteGo]
    cases hg : mapGet n.children (getSegmentName seg) with
    | none => simp
    | some c =>
      rw [hg] at h
      simp [ih c h]

/-- When the route is registered, the delete walk succeeds. -/
theorem deleteGo_some {T : Type} :
    ∀ (segs : List Segment) (n : Node T) (h : T),
      walkHandler segs n = some h → (deleteGo segs n).isSome = true := by
  intro segs
  induction segs with
  | nil =>
    intro n h hw
    simp only [walkHandler, walkStatic] at hw
    simp [deleteGo, hw]
  | cons seg rest ih =>
    intro n h hw
    rw [walkHandler_cons] at hw
    simp only [deleteGo]
    cases hg : mapGet n.children (getSegmentName seg) with
    | none => rw [hg] at hw; simp at hw
    | some c =>
      rw [hg] at hw
      have := ih c h hw
      cases hd : deleteGo rest c with
      | none => rw [hd] at this; simp at this
      | some child1 =>
        by_cases hpr : child1.handler.isNone && child1.children.isEmpty
        · simp [hd, hpr]
        · simp [hd, hpr]

/-- Claim C6.  First conjunct (every trie, every path): when the target node
or its handler does not exist, `delete` returns `false` and the trie is
unchanged.  Second: when the route is registered, `delete` reports success.
Third block (concrete, every pair of handlers): deleting `/a/b/c` from a trie
that also holds `/a/d` removes the route (`find` returns no match), prunes
the now-empty `b` chain, stops pruning at `a` (which still has the `d`
child), and leaves the sibling `/a/d` resolvable to its original handler. -/
theorem claim6_delete_prunes :
    (∀ (T : Type) (t : TrieState T) (p : String),
      staticHandlerAt t p = none → deleteRoute t p = (t, false)) ∧
    (∀ (T : Type) (t : TrieState T) (p : String) (h : T),
      staticHandlerAt t p = some h → (deleteRoute t p).2 = true) ∧
    (∀ (T : Type) (h1 h2 : T),
      (deleteRoute (create ((create (TrieState.new T) "/a/b/c" (some h1)).1) "/a/d"
          (some h2)).1 "/a/b/c").2 = true ∧
      (findObs (deleteRoute (create ((create (TrieState.new T) "/a/b/c" (some h1)).1)
          "/a/d" (some h2)).1 "/a/b/c").1 "/a/b/c" : ObsT T) = none ∧
      (walkStatic (transformToSegment "/a/b")
          (deleteRoute (create ((create (TrieState.new T) "/a/b/c" (some h1)).1) "/a/d"
            (some h2)).1 "/a/b/c").1.root).isNone = true ∧
      (walkStatic (transformToSegment "/a")
          (deleteRoute (create ((create (TrieState.new T) "/a/b/c" (some h1)).1) "/a/d"
            (some h2)).1 "/a/b/c").1.root).isSome = true ∧
      (findObs (deleteRoute (create ((create (TrieState.new T) "/a/b/c" (some h1)).1)
          "/a/d" (some h2)).1 "/a/b/c").1 "/a/d" : ObsT T)
        = some (some h2, [], [], "")) := by
  refine ⟨?_, ?_, fun T h1 h2 => ⟨rfl, rfl, rfl, rfl, rfl⟩⟩
  · intro T t p hmiss
    unfold staticHandlerAt at hmiss
    unfold deleteRoute
    dsimp only
    by_cases hroot : jsTrim p = "" ∨ jsTrim p = "/"
    · rw [if_pos hroot]
      rw [transformToSegment_root hroot] at hmiss
      simp only [walkHandler, walkStatic] at hmiss
      rw [hmiss]
    · rw [if_neg hroot]
      rw [deleteGo_none _ _ hmiss]
  · intro T t p h hreg
    unfold staticHandlerAt at hreg
    unfold deleteRoute
    dsimp only
    by_cases hroot : jsTrim p = "" ∨ jsTrim p = "/"
    · rw [if_pos hroot]
      rw [transformToSegment_root hroot] at hreg
      simp only [walkHandler, walkStatic] at hreg
      rw [hreg]
    · rw [if_neg hroot]
      have := deleteGo_some _ t.root h hreg
      cases hd : deleteGo (transformToSegment (jsTrim p)) t.root with
      | none => rw [hd] at this; simp at this
      | some root1 => rfl

/-- Witness for C6: a missing route (`/a/x`) fails and leaves the trie
unchanged; the registered `/a/b/c` deletes successfully. -/
theorem claim6_witness :
    deleteRoute (create ((create (TrieState.new Nat) "/a/b/c" (some 1)).1) "/a/d"
        (some 2)).1 "/a/x"
      = ((create ((create (TrieState.new Nat) "/a/b/c" (some 1)).1) "/a/d" (some 2)).1,
        false) ∧
    (deleteRoute (create ((create (TrieState.new Nat) "/a/b/c" (some 1)).1) "/a/d"
        (some 2)).1 "/a/b/c").2 = true :=
  ⟨claim6_delete_prunes.1 Nat _ "/a/x" (by decide),
   claim6_delete_prunes.2.1 Nat _ "/a/b/c" 1 (by decide)⟩

/-! ### Claim C8 — route-cache transparency -/

/-- Well-formedness of the route cache: every entry stores exactly the direct
tokenization of its key. -/
def CacheWF (c : CacheState (List Segment)) : Prop :=
  ∀ e ∈ c.entries, e.value = transformToSegment e.key

/-- A found cache entry carries the looked-up key and is one of the entries. -/
theorem cacheFind_spec {V : Type} :
    ∀ (l : List (CacheEntry V)) (k : String) (e : CacheEntry V),
      cacheFind l k = some e → e.key = k ∧ e ∈ l := by
  intro l
  induction l with
  | nil => intro k e h; simp [cacheFind] at h
  | cons hd tl ih =>
    intro k e h
    simp only [cacheFind] at h
    by_cases hk : hd.key = k
    · rw [if_pos hk] at h
      obtain rfl : hd = e := by injection h
      exact ⟨hk, by simp⟩
    · rw [if_neg hk] at h
      obtain ⟨h1, h2⟩ := ih k e h
      exact ⟨h1, by simp [h2]⟩

/-- Erasing an entry only removes entries. -/
theorem mem_eraseEntry {V : Type} :
    ∀ (l : List (CacheEntry V)) (k : String) (e : CacheEntry V),
      e ∈ eraseEntry l k → e ∈ l := by
  intro l
  induction l with
  | nil => intro k e h; simp [eraseEntry] at h
  | cons hd tl ih =>
    intro k e h
    simp only [eraseEntry] at h
    by_cases hk : hd.key = k
    · rw [if_pos hk] at h
      exact List.mem_cons_of_mem hd h
    · rw [if_neg hk] at h
      rcases List.mem_cons.mp h with h1 | h1
      · exact h1 ▸ List.mem_cons_self hd tl
      · exact List.mem_cons_of_mem hd (ih k e h1)

/-- Dropping a prefix only removes entries. -/
theorem mem_of_dropWhile {α : Type} (p : α → Bool) :
    ∀ (l : List α) (e : α), e ∈ l.dropWhile p → e ∈ l := by
  intro l
  induction l with
  | nil => intro e h; simp [List.dropWhile] at h
  | cons hd tl ih =>
    intro e h
    simp only [List.dropWhile] at h
    cases hp : p hd with
    | true => rw [hp] at h; exact List.mem_cons_of_mem hd (ih e h)
    | false => rw [hp] at h; exact h

/-- `Cache.get` preserves well-formedness and, on a hit, returns exactly the
direct tokenization of the key. -/
theorem cacheGet_spec (c : CacheState (List Segment)) (now : Nat) (key : String)
    (hwf : CacheWF c) :
    CacheWF (cacheGet c now key).2 ∧
    ((cacheGet c now key).1 = none ∨
      (cacheGet c now key).1 = some (transformToSegment key)) := by
  unfold cacheGet
  cases hf : cacheFind c.entries key with
  | none => exact ⟨hwf, Or.inl rfl⟩
  | some e =>
    dsimp only
    obtain ⟨hk, hmem⟩ := cacheFind_spec c.entries key e hf
    by_cases hexp : entryExpired e now
    · rw [if_pos hexp]
      refine ⟨?_, Or.inl rfl⟩
      intro x hx
      exact hwf x (mem_eraseEntry _ _ _ hx)
    · rw [if_neg hexp]
      constructor
      · intro x hx
        rcases List.mem_append.mp hx with h1 | h1
        · exact hwf x (mem_eraseEntry _ _ _ h1)
        · rw [List.mem_singleton.mp h1]
          exact hwf e hmem
      · exact Or.inr (by rw [hwf e hmem, hk])

/-- `Cache.set` with the direct tokenization preserves well-formedness. -/
theorem cacheSet_spec (c : CacheState (List Segment)) (now : Nat) (key : String)
    (ttl : Option Nat) (hwf : CacheWF c) :
    CacheWF (cacheSet c now key (transformToSegment key) ttl) := by
  unfold cacheSet
  cases hf : cacheFind c.entries key with
  | some e =>
    dsimp only
    intro x hx
    rcases List.mem_append.mp hx with h1 | h1
    · exact hwf x (mem_eraseEntry _ _ _ h1)
    · rw [List.mem_singleton.mp h1]
  | none =>
    dsimp only
    by_cases hfull : c.entries.length ≥ c.maxSize
    · rw [if_pos hfull]
      cases hent : c.entries with
      | nil =>
        intro x hx
        rcases List.mem_append.mp hx with h1 | h1
        · simp at h1
        · rw [List.mem_singleton.mp h1]
      | cons h0 t0 =>
        intro x hx
        rcases List.mem_append.mp hx with h1 | h1
        · exact hwf x (by rw [hent]; exact mem_eraseEntry _ _ _ h1)
        · rw [List.mem_singleton.mp h1]
    · rw [if_neg hfull]
      intro x hx
      rcases List.mem_append.mp hx with h1 | h1
      · exact hwf x h1
      · rw [List.mem_singleton.mp h1]

/-- `getSegmentsFromCache` on a well-formed cache returns the direct
tokenization (hit or miss) and keeps the cache well-formed. -/
theorem getSegmentsFromCache_spec (c : CacheState (List Segment)) (now : Nat)
    (path : String) (hwf : CacheWF c) :
    (getSegmentsFromCache c now path).1 = transformToSegment path ∧
    CacheWF (getSegmentsFromCache c now path).2 := by
  obtain ⟨hwf2, hval⟩ := cacheGet_spec c now path hwf
  unfold getSegmentsFromCache
  cases hg : cacheGet c now path with
  | mk fst snd =>
    rw [hg] at hwf2 hval
    dsimp only at hwf2 hval
    cases fst with
    | none =>
      dsimp only
      exact ⟨rfl, cacheSet_spec snd now path none hwf2⟩
    | some v =>
      dsimp only
      rcases hval with h1 | h1
      · exact absurd h1 (by simp)
      · exact ⟨by injection h1, hwf2⟩

/-- Cleanup sweeps preserve well-formedness. -/
theorem cacheCleanup_spec (c : CacheState (List Segment)) (now : Nat)
    (hwf : CacheWF c) : CacheWF (cacheCleanup c now) := by
  intro x hx
  exact hwf x (mem_of_dropWhile _ _ _ hx)

/-- Claim C8: the route cache is transparent.  First conjunct: from any
well-formed cache state, every interleaving of lookups and cleanup sweeps
returns, for each looked-up path, exactly the direct tokenization.  Second
conjunct: in particular this holds for a freshly configured cache of any
capacity and expiry — before or after hits, misses, expiry and LRU
eviction. -/
theorem claim8_cache_transparency :
    (∀ (ops : List CacheOp) (c : CacheState (List Segment)),
      CacheWF c → runCacheOps c ops = directSegs ops) ∧
    (∀ (maxSize : Nat) (expiration : Option Nat) (ops : List CacheOp),
      runCacheOps (CacheState.new (List Segment) maxSize expiration) ops
        = directSegs ops) := by
  have main : ∀ (ops : List CacheOp) (c : CacheState (List Segment)),
      CacheWF c → runCacheOps c ops = directSegs ops := by
    intro ops
    induction ops with
    | nil => intro c _; rfl
    | cons op rest ih =>
      intro c hwf
      cases op with
      | lookup now p =>
        obtain ⟨hval, hwf2⟩ := getSegmentsFromCache_spec c now p hwf
        simp only [runCacheOps, directSegs]
        rw [hval, ih _ hwf2]
      | sweep now =>
        simp only [runCacheOps, directSegs]
        exact ih _ (cacheCleanup_spec c now hwf)
  exact ⟨main, fun maxSize expiration ops =>
    main ops _ (fun e he => absurd he (by simp [CacheState.new]))⟩

/-- Witness for C8: a five-step interleaving with a capacity-1 cache (forcing
eviction), a repeated path (hit), and a sweep, returns the direct
tokenizations throughout. -/
theorem claim8_witness :
    runCacheOps (CacheState.new (List Segment) 1 (some 5))
        [CacheOp.lookup 0 "/a/b", CacheOp.lookup 1 "/c", CacheOp.lookup 2 "/a/b",
          CacheOp.sweep 30, CacheOp.lookup 31 "/a/b"]
      = directSegs
        [CacheOp.lookup 0 "/a/b", CacheOp.lookup 1 "/c", CacheOp.lookup 2 "/a/b",
          CacheOp.sweep 30, CacheOp.lookup 31 "/a/b"] :=
  claim8_cache_transparency.1 _ _ (fun e he => absurd he (by simp [CacheState.new]))

/-! ### Claim C4 — room emptiness, `empty` event and deferred deletion -/

/-- Evaluation of the room subsystem showing claim C4 fails on the code.
With `roomCleanupDelay = 0` and the sequence join(A), join(B), leave(A),
leave(B) on room `r`: socket A created the room, so the Registry's `empty`
listener is tagged with A's id and is removed when A leaves; when B's leave
then drops the member set to zero, **no** `empty` listener fires and the
Registry never removes the empty room from its map (first two conjuncts).
The remaining conjuncts show the claimed behaviour does hold in the
single-member runs the spec describes: one `empty` firing and immediate
deletion at delay 0; at delay 1000 the room survives until the timer fires,
the timer deletes it, and a rejoin before the timer cancels deletion. -/
theorem claim4_room_cleanup_eval :
    mapGet (runRoomOps (ManagerState.new 0)
        [RoomOp.join "A" "r", RoomOp.join "B" "r",
          RoomOp.leave "A" "r", RoomOp.leave "B" "r"]).1.rooms "r"
      = some ⟨[], []⟩ ∧
    countEmptyFired (runRoomOps (ManagerState.new 0)
        [RoomOp.join "A" "r", RoomOp.join "B" "r",
          RoomOp.leave "A" "r", RoomOp.leave "B" "r"]).2 = 0 ∧
    mapGet (runRoomOps (ManagerState.new 0)
        [RoomOp.join "A" "r", RoomOp.leave "A" "r"]).1.rooms "r" = none ∧
    countEmptyFired (runRoomOps (ManagerState.new 0)
        [RoomOp.join "A" "r", RoomOp.leave "A" "r"]).2 = 1 ∧
    (mapGet (runRoomOps (ManagerState.new 1000)
        [RoomOp.join "A" "r", RoomOp.leave "A" "r"]).1.rooms "r").isSome = true ∧
    mapGet (runRoomOps (ManagerState.new 1000)
        [RoomOp.join "A" "r", RoomOp.leave "A" "r", RoomOp.fire "r"]).1.rooms "r"
      = none ∧
    mapGet (runRoomOps (ManagerState.new 1000)
        [RoomOp.join "A" "r", RoomOp.leave "A" "r", RoomOp.join "A" "r",
          RoomOp.fire "r"]).1.rooms "r" = some ⟨["A"], []⟩ := by
  decide

/-! ### Claim C5 — `send` fan-out and payload classification -/

/-- Counterexample for C5 as stated: in a room with members A, B, C each
holding a `message` listener, `send` from A with the string payload `"hi"`
delivers to B and C with kind `Message.Object` — the classification chain's
final `else` — not the text kind `Message.String` the claim requires. -/
theorem claim5_counterexample :
    containerSend ⟨["A", "B", "C"],
        [⟨RoomEventKind.message, "A", SubAction.userListener 0⟩,
         ⟨RoomEventKind.message, "B", SubAction.userListener 1⟩,
         ⟨RoomEventKind.message, "C", SubAction.userListener 2⟩]⟩ "A" (Payload.str "hi")
      = [(⟨RoomEventKind.message, "B", SubAction.userListener 1⟩, Payload.str "hi",
          Message.Object),
         (⟨RoomEventKind.message, "C", SubAction.userListener 2⟩, Payload.str "hi",
          Message.Object)] ∧
    Message.Object ≠ Message.String := by
  decide

/-- Claim C5 as amended.  First conjunct: every notification `send` emits goes
to a listener not owned by the sender and carries the payload with its
classified kind.  Second: every `message` listener owned by a member other
than the sender is invoked with the payload and its classified kind.  Third:
the classification — a string payload gets the *object* kind (the classifier
only special-cases Buffer, ArrayBuffer and Buffer arrays), a plain object the
object kind, a Buffer the binary-buffer kind, a Buffer array the
binary-buffer-list kind.  Fourth: the concrete A/B/C room. -/
theorem claim5_send_fanout :
    (∀ (c : RoomContainerState) (sid : String) (p : Payload)
        (x : Sub × Payload × Message),
      x ∈ containerSend c sid p →
      x.1.id ≠ sid ∧ x.2.1 = p ∧ x.2.2 = classifyMessage p) ∧
    (∀ (c : RoomContainerState) (sid : String) (p : Payload) (s : Sub),
      s ∈ c.events → s.kind = RoomEventKind.message → s.id ≠ sid →
      (s, p, classifyMessage p) ∈ containerSend c sid p) ∧
    (∀ (s o : String) (b ab : List Nat) (bs : List (List Nat)),
      classifyMessage (Payload.str s) = Message.Object ∧
      classifyMessage (Payload.obj o) = Message.Object ∧
      classifyMessage (Payload.buffer b) = Message.Buffer ∧
      classifyMessage (Payload.arrayBuffer ab) = Message.ArrayBuffer ∧
      classifyMessage (Payload.bufferList bs) = Message.ListBuffer) ∧
    (∀ (p : Payload),
      containerSend ⟨["A", "B", "C"],
          [⟨RoomEventKind.message, "A", SubAction.userListener 0⟩,
           ⟨RoomEventKind.message, "B", SubAction.userListener 1⟩,
           ⟨RoomEventKind.message, "C", SubAction.userListener 2⟩]⟩ "A" p
        = [(⟨RoomEventKind.message, "B", SubAction.userListener 1⟩, p,
            classifyMessage p),
           (⟨RoomEventKind.message, "C", SubAction.userListener 2⟩, p,
            classifyMessage p)]) := by
  refine ⟨?_, ?_, fun s o b ab bs => ⟨rfl, rfl, rfl, rfl, rfl⟩, fun p => rfl⟩
  · intro c sid p x hx
    unfold containerSend at hx
    obtain ⟨s, hs, rfl⟩ := List.mem_map.mp hx
    obtain ⟨hmem, hcond⟩ := List.mem_filter.mp hs
    simp only [decide_eq_true_eq] at hcond
    exact ⟨hcond.2, rfl, rfl⟩
  · intro c sid p s hmem hkind hid
    unfold containerSend
    exact List.mem_map.mpr ⟨s, List.mem_filter.mpr ⟨hmem, by simp [hkind, hid]⟩, rfl⟩

/-- Witness for C5: in the A/B/C room, B's listener (a member other than the
sender A) receives the buffer payload with the binary-buffer kind, and the
emitted notification indeed does not belong to A. -/
theorem claim5_witness :
    ((⟨RoomEventKind.message, "B", SubAction.userListener 1⟩ : Sub),
        Payload.buffer [1, 2], classifyMessage (Payload.buffer [1, 2])) ∈
      containerSend ⟨["A", "B", "C"],
          [⟨RoomEventKind.message, "A", SubAction.userListener 0⟩,
           ⟨RoomEventKind.message, "B", SubAction.userListener 1⟩,
           ⟨RoomEventKind.message, "C", SubAction.userListener 2⟩]⟩ "A"
        (Payload.buffer [1, 2]) ∧
    (((⟨RoomEventKind.message, "B", SubAction.userListener 1⟩ : Sub),
        Payload.buffer [1, 2],
        classifyMessage (Payload.buffer [1, 2])).1.id ≠ "A" ∧
      ((⟨RoomEventKind.message, "B", SubAction.userListener 1⟩ : Sub),
        Payload.buffer [1, 2], classifyMessage (Payload.buffer [1, 2])).2.1
        = Payload.buffer [1, 2] ∧
      ((⟨RoomEventKind.message, "B", SubAction.userListener 1⟩ : Sub),
        Payload.buffer [1, 2], classifyMessage (Payload.buffer [1, 2])).2.2
        = classifyMessage (Payload.buffer [1, 2])) :=
  ⟨claim5_send_fanout.2.1 (⟨["A", "B", "C"],
          [⟨RoomEventKind.message, "A", SubAction.userListener 0⟩,
           ⟨RoomEventKind.message, "B", SubAction.userListener 1⟩,
           ⟨RoomEventKind.message, "C", SubAction.userListener 2⟩]⟩ : RoomContainerState) "A" (Payload.buffer [1, 2])
      ⟨RoomEventKind.message, "B", SubAction.userListener 1⟩ (by decide) rfl (by decide),
   claim5_send_fanout.1 (⟨["A", "B", "C"],
          [⟨RoomEventKind.message, "A", SubAction.userListener 0⟩,
           ⟨RoomEventKind.message, "B", SubAction.userListener 1⟩,
           ⟨RoomEventKind.message, "C", SubAction.userListener 2⟩]⟩ : RoomContainerState) "A" (Payload.buffer [1, 2]) _
      (claim5_send_fanout.2.1 (⟨["A", "B", "C"],
          [⟨RoomEventKind.message, "A", SubAction.userListener 0⟩,
           ⟨RoomEventKind.message, "B", SubAction.userListener 1⟩,
           ⟨RoomEventKind.message, "C", SubAction.userListener 2⟩]⟩ : RoomContainerState) "A" (Payload.buffer [1, 2])
        ⟨RoomEventKind.message, "B", SubAction.userListener 1⟩ (by decide) rfl
        (by decide))⟩

end Symphony
